import Mathlib

/-!
Verification development for the grpc-dfs repository (client node and
server node of a small distributed file synchronization service).

The definitions below are shallow embeddings of the C++ sources
`src/server-node/dfslib-servernode.cpp` and
`src/client-node/dfslib-clientnode.cpp`: each Lean definition mirrors the
control flow of one source function, with machine state (the write-lock
map, local file contents, RPC stream contents) passed explicitly and
fallible operations modelled with `Option`/`Bool` inputs.
-/

/-- Transport status codes used by the service.  `otherCode n` stands for
any gRPC code outside the six the system names (UNKNOWN, INTERNAL,
UNAVAILABLE, ...). -/
inductive StatusCode where
  | ok
  | cancelled
  | deadlineExceeded
  | notFound
  | alreadyExists
  | resourceExhausted
  | otherCode (n : Nat)
deriving DecidableEq, Repr

/-! ## Server write-lock registry

`DFSServiceImpl::write_locks` is a `std::unordered_map<std::string,
std::string>` from filename to owning client id.  We embed it as an
association list with unique keys; `lookupOwner` is map lookup,
`setOwner` is `operator[]` assignment, `eraseOwner` is `erase`. -/

/-- The write-lock registry: filename paired with the owning client id. -/
abbrev Registry := List (String × String)

/-- Map lookup: the owner recorded for filename `f`, if any entry exists. -/
def lookupOwner (m : Registry) (f : String) : Option String :=
  (m.find? (fun p => p.1 = f)).map Prod.snd

/-- Map store: `write_locks[f] = c`, replacing an existing entry for `f`
or appending a new one. -/
def setOwner : Registry → String → String → Registry
  | [], f, c => [(f, c)]
  | (k, v) :: rest, f, c =>
      if k = f then (f, c) :: rest else (k, v) :: setOwner rest f c

/-- Map erase: `write_locks.erase(f)`. -/
def eraseOwner (m : Registry) (f : String) : Registry :=
  m.filter (fun p => ¬ p.1 = f)

/-- The registry has at most one entry per filename. -/
def nodupKeys (m : Registry) : Prop :=
  (m.map Prod.fst).Nodup

/-- Result of the `DFSRequestLock` handler: the updated registry, the
`locked` field of the `LockResponse`, and the returned status. -/
structure LockResult where
  registry : Registry
  locked : Bool
  status : StatusCode
deriving DecidableEq, Repr

/-- Embedding of `DFSServiceImpl::DFSRequestLock`
(`src/server-node/dfslib-servernode.cpp:303`).  If the context is
cancelled the handler returns DEADLINE_EXCEEDED without touching the map.
Otherwise, under the registry mutex, access is granted when
`write_locks[filename]` is `""` (which `operator[]` also yields for an
absent key) or already equals `cid`; on grant the owner becomes `cid`,
else the map is unchanged and the reply is RESOURCE_EXHAUSTED with
`locked = false`. -/
def dfsRequestLock (m : Registry) (f cid : String) (cancelled : Bool) : LockResult :=
  if cancelled then
    { registry := m, locked := false, status := .deadlineExceeded }
  else
    match lookupOwner m f with
    | none => { registry := setOwner m f cid, locked := true, status := .ok }
    | some owner =>
        if owner = "" ∨ owner = cid then
          { registry := setOwner m f cid, locked := true, status := .ok }
        else
          { registry := m, locked := false, status := .resourceExhausted }

/-- An operation on the registry: a lock request (possibly cancelled) or
a release (`write_locks.erase`) performed by a mutating handler. -/
inductive LockOp where
  | request (f cid : String) (cancelled : Bool)
  | release (f : String)
deriving DecidableEq, Repr

/-- The registry after one operation. -/
def stepOp (m : Registry) : LockOp → Registry
  | .request f cid cancelled => (dfsRequestLock m f cid cancelled).registry
  | .release f => eraseOwner m f

/-- The registry reached from the empty initial map by a sequence of
operations. -/
def runOps (ops : List LockOp) : Registry :=
  ops.foldl stepOp []

/-! ## Client-side status translation

Each client method ends in an `if`/`else if` chain on the transport
status (`src/client-node/dfslib-clientnode.cpp`); one definition per call
site. -/

/-- Translation at the end of `DFSClientNodeP2::RequestWriteAccess`
(lines 90-106). -/
def requestLockTranslate : StatusCode → StatusCode
  | .ok => .ok
  | .deadlineExceeded => .deadlineExceeded
  | .resourceExhausted => .resourceExhausted
  | _ => .cancelled

/-- Translation at the end of `DFSClientNodeP2::Stat` (lines 454-483). -/
def statTranslate : StatusCode → StatusCode
  | .ok => .ok
  | .deadlineExceeded => .deadlineExceeded
  | .notFound => .notFound
  | _ => .cancelled

/-- Translation of `writer->Finish()` in `DFSClientNodeP2::Store`
(lines 174-186). -/
def storeFinishTranslate : StatusCode → StatusCode
  | .ok => .ok
  | .deadlineExceeded => .deadlineExceeded
  | _ => .cancelled

/-- Translation of `reader->Finish()` in `DFSClientNodeP2::Fetch`
(lines 260-276). -/
def fetchFinishTranslate : StatusCode → StatusCode
  | .ok => .ok
  | .deadlineExceeded => .deadlineExceeded
  | .notFound => .notFound
  | _ => .cancelled

/-- Translation at the end of `DFSClientNodeP2::Delete`
(lines 336-352). -/
def deleteTranslate : StatusCode → StatusCode
  | .ok => .ok
  | .deadlineExceeded => .deadlineExceeded
  | .notFound => .notFound
  | _ => .cancelled

/-- Translation at the end of `DFSClientNodeP2::List`
(lines 396-415). -/
def listTranslate : StatusCode → StatusCode
  | .ok => .ok
  | .deadlineExceeded => .deadlineExceeded
  | _ => .cancelled

/-- The client-side `FileStatus` record filled in by `Stat` from the
server's `StatusResponse`. -/
structure FileStatus where
  filename : String
  size : Nat
  mtime : Int
  ctime : Int
  server_crc : Nat
deriving DecidableEq, Repr

/-- The chunk-sending loop of `DFSClientNodeP2::Store` (lines 163-171):
`while (!filestream.eof()) { read 256; Write(chunk of gcount bytes) }`.
The eof flag tested at the top of an iteration is the flag left by the
previous `read`: it is set only when that read returned fewer than 256
bytes, so a file whose size is a multiple of 256 produces a final empty
chunk. -/
def storeSendLoop (rest : List Nat) (eofFlag : Bool) : List (List Nat) :=
  match eofFlag with
  | true => []
  | false => rest.take 256 :: storeSendLoop (rest.drop 256) (decide (rest.length < 256))
termination_by rest.length + (if eofFlag then 0 else 1)
decreasing_by
  simp_wf
  by_cases h : rest.length < 256 <;> simp [h] <;> omega

/-- Inputs of one `DFSClientNodeP2::Store` invocation (lines 129-208):
the transport status and reply of the Stat RPC, the residual contents of
the stack-allocated `FileStatus` struct (which `Stat` leaves unwritten
unless the RPC returns OK), the CRC of the local file, whether the local
`ifstream` opens, the transport statuses of the lock RPC and of
`writer->Finish()`, and the local file's bytes and mtime. -/
structure StoreEnv where
  rawStat : StatusCode
  statReply : FileStatus
  residual : FileStatus
  localCrc : Nat
  localOpenOk : Bool
  rawLock : StatusCode
  rawFinish : StatusCode
  localContent : List Nat
  localMtime : Int
deriving DecidableEq, Repr

/-- Observable outcome of one client Store: returned status, whether
`RequestWriteAccess` was invoked, the chunk messages written to the
stream, and the local file's content and mtime afterwards. -/
structure StoreOutcome where
  status : StatusCode
  lockRequested : Bool
  sentChunks : List (List Nat)
  localContent : List Nat
  localMtime : Int
deriving DecidableEq, Repr

/-- Embedding of `DFSClientNodeP2::Store`
(`src/client-node/dfslib-clientnode.cpp:129`).  `Stat` is inlined as
`statTranslate` plus the rule that the `FileStatus` out-parameter is
written only when the transport status is OK; on any other status the
comparison below reads the struct's residual contents. -/
def clientStore (e : StoreEnv) : StoreOutcome :=
  let st := statTranslate e.rawStat
  let fs := if e.rawStat = StatusCode.ok then e.statReply else e.residual
  if st = StatusCode.ok ∨ st = StatusCode.notFound then
    if ¬ e.localCrc = fs.server_crc then
      let ls := requestLockTranslate e.rawLock
      if ls = StatusCode.ok then
        if e.localOpenOk then
          { status := storeFinishTranslate e.rawFinish, lockRequested := true,
            sentChunks := storeSendLoop e.localContent false,
            localContent := e.localContent, localMtime := e.localMtime }
        else
          { status := StatusCode.notFound, lockRequested := true, sentChunks := [],
            localContent := e.localContent, localMtime := e.localMtime }
      else
        { status := ls, lockRequested := true, sentChunks := [],
          localContent := e.localContent, localMtime := e.localMtime }
    else
      { status := StatusCode.alreadyExists, lockRequested := false, sentChunks := [],
        localContent := e.localContent, localMtime := fs.mtime }
  else
    { status := st, lockRequested := false, sentChunks := [],
      localContent := e.localContent, localMtime := e.localMtime }

/-- Inputs of one `DFSClientNodeP2::Fetch` invocation (lines 229-299):
Stat transport status and reply, local CRC, the chunk messages delivered
by the server stream, the status of `reader->Finish()`, and the local
file's bytes and mtime before the call. -/
structure FetchEnv where
  rawStat : StatusCode
  statReply : FileStatus
  localCrc : Nat
  recvChunks : List (List Nat)
  rawFinish : StatusCode
  localContent : List Nat
  localMtime : Int
deriving DecidableEq, Repr

/-- Observable outcome of one client Fetch: returned status, whether the
streaming RPC was issued (the local file is then opened for truncating
binary write before the first chunk), and the local file afterwards. -/
structure FetchOutcome where
  status : StatusCode
  fetchIssued : Bool
  localContent : List Nat
  localMtime : Int
deriving DecidableEq, Repr

/-- Embedding of `DFSClientNodeP2::Fetch`
(`src/client-node/dfslib-clientnode.cpp:229`).  In the streaming branch
the local `ofstream` is opened (truncating) before the read loop, so the
file afterwards holds exactly the received chunk bytes, whatever status
`Finish` returns. -/
def clientFetch (e : FetchEnv) : FetchOutcome :=
  let st := statTranslate e.rawStat
  if st = StatusCode.ok then
    if ¬ e.localCrc = e.statReply.server_crc then
      { status := fetchFinishTranslate e.rawFinish, fetchIssued := true,
        localContent := e.recvChunks.flatten, localMtime := e.localMtime }
    else
      { status := StatusCode.alreadyExists, fetchIssued := false,
        localContent := e.localContent, localMtime := e.statReply.mtime }
  else if st = StatusCode.deadlineExceeded then
    { status := StatusCode.deadlineExceeded, fetchIssued := false,
      localContent := e.localContent, localMtime := e.localMtime }
  else if st = StatusCode.notFound then
    { status := StatusCode.notFound, fetchIssued := false,
      localContent := e.localContent, localMtime := e.localMtime }
  else
    { status := StatusCode.cancelled, fetchIssued := false,
      localContent := e.localContent, localMtime := e.localMtime }

/-- One message of the client-streaming Store RPC. -/
structure StoreChunk where
  filename : String
  filechunk : List Nat
deriving DecidableEq, Repr

/-- Result of the server Store handler: the write-lock registry and the
status it returns, plus the bytes written to the destination file. -/
structure StoreHandlerResult where
  registry : Registry
  status : StatusCode
  written : List Nat
deriving DecidableEq, Repr

/-- The read loop of `DFSServiceImpl::DFSStoreFile` (lines 345-366).
`filename` is the handler's local variable, initialised empty and
assigned from the first chunk only after the cancellation check of that
iteration; `cancelAt = some i` means `IsCancelled()` turns true at the
check of iteration `i` (0-based). -/
def storeRecvLoop (m : Registry) (cancelAt : Option Nat) :
    List StoreChunk → Nat → String → List Nat → Bool → StoreHandlerResult
  | [], _, filename, written, _ =>
      { registry := eraseOwner m filename, status := StatusCode.ok, written := written }
  | c :: rest, i, filename, written, isFirst =>
      if cancelAt = some i then
        { registry := eraseOwner m filename, status := StatusCode.deadlineExceeded,
          written := written }
      else
        let fn := if isFirst then c.filename else filename
        storeRecvLoop m cancelAt rest (i + 1) fn (written ++ c.filechunk) false

/-- Embedding of `DFSServiceImpl::DFSStoreFile`
(`src/server-node/dfslib-servernode.cpp:336`): read chunks until stream
end or cancellation, then release `write_locks[filename]` and return. -/
def dfsStoreFile (m : Registry) (chunks : List StoreChunk) (cancelAt : Option Nat) :
    StoreHandlerResult :=
  storeRecvLoop m cancelAt chunks 0 "" [] true

/-- The send loop of `DFSServiceImpl::DFSGetFile` (lines 284-297): test
eof, check cancellation, read up to 256 bytes, write one chunk.  Same
eof-flag convention as `storeSendLoop`. -/
def getSendLoop (rest : List Nat) (eofFlag : Bool) (cancelAt : Option Nat) (i : Nat) :
    StatusCode × List (List Nat) :=
  match eofFlag with
  | true => (StatusCode.ok, [])
  | false =>
      if cancelAt = some i then (StatusCode.deadlineExceeded, [])
      else
        let r := getSendLoop (rest.drop 256) (decide (rest.length < 256)) cancelAt (i + 1)
        (r.1, rest.take 256 :: r.2)
termination_by rest.length + (if eofFlag then 0 else 1)
decreasing_by
  simp_wf
  by_cases h : rest.length < 256 <;> simp [h] <;> omega

/-- Embedding of `DFSServiceImpl::DFSGetFile`
(`src/server-node/dfslib-servernode.cpp:270`): NOT_FOUND when the file
does not open, else the chunked send loop. -/
def dfsGetFile (file : Option (List Nat)) (cancelAt : Option Nat) :
    StatusCode × List (List Nat) :=
  match file with
  | none => (StatusCode.notFound, [])
  | some content => getSendLoop content false cancelAt 0

/-- Result of the server Delete handler. -/
structure DeleteHandlerResult where
  registry : Registry
  status : StatusCode
deriving DecidableEq, Repr

/-- Embedding of `DFSServiceImpl::DFSDeleteFile`
(`src/server-node/dfslib-servernode.cpp:378`): under the lock-registry
mutex, return DEADLINE_EXCEEDED if cancelled, else attempt the removal
(`removeOk` is the success of `std::remove`); the lock for the filename
is erased on every path. -/
def dfsDeleteFile (m : Registry) (f : String) (cancelled removeOk : Bool) :
    DeleteHandlerResult :=
  if cancelled then
    { registry := eraseOwner m f, status := StatusCode.deadlineExceeded }
  else if removeOk then
    { registry := eraseOwner m f, status := StatusCode.ok }
  else
    { registry := eraseOwner m f, status := StatusCode.cancelled }

/-- Observable outcome of one client Delete: the returned status and
whether the unary delete RPC was issued at all. -/
structure ClientDeleteOutcome where
  status : StatusCode
  rpcIssued : Bool
deriving DecidableEq, Repr

/-- Embedding of `DFSClientNodeP2::Delete`
(`src/client-node/dfslib-clientnode.cpp:318`): request the write lock
first; only when that returns OK is the delete RPC issued and its status
translated. -/
def clientDelete (rawLock rawDelete : StatusCode) : ClientDeleteOutcome :=
  let ls := requestLockTranslate rawLock
  if ls = StatusCode.ok then
    { status := deleteTranslate rawDelete, rpcIssued := true }
  else
    { status := ls, rpcIssued := false }

/-- One `readdir` entry of the server mount directory: its name, whether
it is a regular file, and the result of `stat` on it (`none` = failure). -/
structure DirEntry where
  name : String
  isReg : Bool
  statMtime : Option Int
deriving DecidableEq, Repr

/-- The entry loop of `DFSServiceImpl::DFSList` (lines 211-228): each
regular file is appended to the response, then `stat` fills its mtime; a
failing `stat` aborts the whole call with CANCELLED (the entry was
already appended with the proto default mtime 0). -/
def listEntries : List DirEntry → List (String × Int) → StatusCode × List (String × Int)
  | [], acc => (StatusCode.ok, acc)
  | e :: rest, acc =>
      if e.isReg then
        match e.statMtime with
        | some mt => listEntries rest (acc ++ [(e.name, mt)])
        | none => (StatusCode.cancelled, acc ++ [(e.name, 0)])
      else
        listEntries rest acc

/-- Embedding of `DFSServiceImpl::DFSList`
(`src/server-node/dfslib-servernode.cpp:200`).  The handler checks
cancellation, then calls `opendir` and immediately iterates the returned
handle; there is no branch for a failed open, so the embedding assigns no
result (`none`) when `opendir` fails. -/
def dfsList (cancelled : Bool) (dirOpen : Option (List DirEntry)) :
    Option (StatusCode × List (String × Int)) :=
  if cancelled then some (StatusCode.deadlineExceeded, [])
  else
    match dirOpen with
    | none => none
    | some entries => some (listEntries entries [])

/-- Embedding of `DFSServiceImpl::ProcessCallback`
(`src/server-node/dfslib-servernode.cpp:143`), the async-dispatcher
listing: iterate the `opendir` handle unconditionally (no branch for a
failed open, hence `none` when it fails); regular files are listed with
their mtime, or the proto default 0 if `stat` fails. -/
def processCallback (dirOpen : Option (List DirEntry)) : Option (List (String × Int)) :=
  match dirOpen with
  | none => none
  | some entries =>
      some (entries.filterMap
        (fun e => if e.isReg then some (e.name, e.statMtime.getD 0) else none))

/-! ## Client watcher serializer

`InotifyWatcherCallback` (lines 504-509) runs the watcher callback under
`watcher_handle_mutex`; `HandleCallbackList` (lines 528-595) runs its
whole per-completion body under the same mutex.  We embed the two
threads as a transition system in which each body can run only between
an acquisition and a release of that single mutex. -/

/-- The two contenders for `watcher_handle_mutex`. -/
inductive SyncAgent where
  | watcher
  | handlerThread
deriving DecidableEq, Repr

/-- Whether an agent is currently executing its handler body. -/
inductive SyncPhase where
  | idle
  | inBody
deriving DecidableEq, Repr

/-- Client state: who holds `watcher_handle_mutex`, and each agent's
phase. -/
structure SyncState where
  mutexHolder : Option SyncAgent
  watcherPhase : SyncPhase
  handlerPhase : SyncPhase
deriving DecidableEq, Repr

/-- Interleaving steps: an agent enters its body only by acquiring the
free mutex (the `std::lock_guard` at the top of each handler) and leaves
it by releasing (the guard's destructor). -/
inductive SyncStep : SyncState → SyncState → Prop
  | watcherAcquire (s : SyncState) (hm : s.mutexHolder = none)
      (hp : s.watcherPhase = SyncPhase.idle) :
      SyncStep s ⟨some SyncAgent.watcher, SyncPhase.inBody, s.handlerPhase⟩
  | watcherRelease (s : SyncState) (hp : s.watcherPhase = SyncPhase.inBody) :
      SyncStep s ⟨none, SyncPhase.idle, s.handlerPhase⟩
  | handlerAcquire (s : SyncState) (hm : s.mutexHolder = none)
      (hp : s.handlerPhase = SyncPhase.idle) :
      SyncStep s ⟨some SyncAgent.handlerThread, s.watcherPhase, SyncPhase.inBody⟩
  | handlerRelease (s : SyncState) (hp : s.handlerPhase = SyncPhase.inBody) :
      SyncStep s ⟨none, s.watcherPhase, SyncPhase.idle⟩

/-- States reachable from the initial state (mutex free, both agents
idle). -/
inductive SyncReachable : SyncState → Prop
  | init : SyncReachable ⟨none, SyncPhase.idle, SyncPhase.idle⟩
  | step {s t : SyncState} : SyncReachable s → SyncStep s t → SyncReachable t

/-! # Theorems -/

/-! ## Registry lemmas -/

theorem mem_keys_setOwner {m : Registry} {f c x : String}
    (h : x ∈ (setOwner m f c).map Prod.fst) :
    x ∈ m.map Prod.fst ∨ x = f := by
  induction m with
  | nil =>
      rw [setOwner, List.map_cons, List.map_nil, List.mem_singleton] at h
      exact Or.inr h
  | cons p rest ih =>
      obtain ⟨k, v⟩ := p
      by_cases hk : k = f
      · rw [setOwner, if_pos hk, List.map_cons, List.mem_cons] at h
        rcases h with h | h
        · exact Or.inr h
        · exact Or.inl (by rw [List.map_cons, List.mem_cons]; exact Or.inr h)
      · rw [setOwner, if_neg hk, List.map_cons, List.mem_cons] at h
        rcases h with h | h
        · exact Or.inl (by rw [List.map_cons, List.mem_cons]; exact Or.inl h)
        · rcases ih h with h' | h'
          · exact Or.inl (by rw [List.map_cons, List.mem_cons]; exact Or.inr h')
          · exact Or.inr h'

theorem nodupKeys_setOwner {m : Registry} {f c : String}
    (h : nodupKeys m) : nodupKeys (setOwner m f c) := by
  induction m with
  | nil =>
      rw [setOwner]
      unfold nodupKeys
      simp
  | cons p rest ih =>
      obtain ⟨k, v⟩ := p
      unfold nodupKeys at h
      rw [List.map_cons, List.nodup_cons] at h
      obtain ⟨hk, hrest⟩ := h
      by_cases hkf : k = f
      · rw [setOwner, if_pos hkf]
        unfold nodupKeys
        rw [List.map_cons, List.nodup_cons]
        exact ⟨by rw [← hkf]; exact hk, hrest⟩
      · rw [setOwner, if_neg hkf]
        unfold nodupKeys
        rw [List.map_cons, List.nodup_cons]
        refine ⟨?_, ih hrest⟩
        intro hmem
        rcases mem_keys_setOwner hmem with h' | h'
        · exact hk h'
        · exact hkf h'

theorem nodupKeys_eraseOwner {m : Registry} {f : String}
    (h : nodupKeys m) : nodupKeys (eraseOwner m f) := by
  unfold nodupKeys at h ⊢
  exact h.sublist (List.Sublist.map Prod.fst (List.filter_sublist m))

theorem lookupOwner_setOwner_self (m : Registry) (f c : String) :
    lookupOwner (setOwner m f c) f = some c := by
  induction m with
  | nil => simp [lookupOwner, setOwner, List.find?]
  | cons p rest ih =>
      obtain ⟨k, v⟩ := p
      by_cases hk : k = f
      · simp [lookupOwner, setOwner, hk, List.find?]
      · simp only [setOwner, if_neg hk]
        simpa [lookupOwner, List.find?, hk] using ih

theorem lookupOwner_eq_none_iff {m : Registry} {f : String} :
    lookupOwner m f = none ↔ ∀ p ∈ m, ¬ p.1 = f := by
  unfold lookupOwner
  rw [Option.map_eq_none']
  constructor
  · intro h p hp hpf
    have := List.find?_eq_none.mp h p hp
    simp [hpf] at this
  · intro h
    exact List.find?_eq_none.mpr (fun p hp => by simp [h p hp])

theorem eraseOwner_of_absent {m : Registry} {f : String}
    (h : lookupOwner m f = none) : eraseOwner m f = m := by
  unfold eraseOwner
  rw [List.filter_eq_self]
  intro p hp
  simpa using lookupOwner_eq_none_iff.mp h p hp

theorem lookupOwner_eraseOwner (m : Registry) (f : String) :
    lookupOwner (eraseOwner m f) f = none := by
  apply lookupOwner_eq_none_iff.mpr
  intro p hp
  have := List.of_mem_filter hp
  simpa using this

/-- The registry a `DFSRequestLock` call leaves behind is either the old
map or the old map with `f ↦ cid` stored. -/
theorem requestLock_registry_cases (m : Registry) (f cid : String) (c : Bool) :
    (dfsRequestLock m f cid c).registry = m ∨
    (dfsRequestLock m f cid c).registry = setOwner m f cid := by
  unfold dfsRequestLock
  cases c
  · cases lookupOwner m f with
    | none => simp
    | some owner =>
        by_cases ho : owner = "" ∨ owner = cid
        · simp [ho]
        · simp [ho]
  · simp

theorem nodupKeys_stepOp {m : Registry} (op : LockOp) (h : nodupKeys m) :
    nodupKeys (stepOp m op) := by
  cases op with
  | request f cid cancelled =>
      rw [stepOp]
      rcases requestLock_registry_cases m f cid cancelled with hr | hr <;> rw [hr]
      · exact h
      · exact nodupKeys_setOwner h
  | release f => exact nodupKeys_eraseOwner h

theorem nodupKeys_runOps (ops : List LockOp) : nodupKeys (runOps ops) := by
  unfold runOps
  have hgen : ∀ m : Registry, nodupKeys m → nodupKeys (ops.foldl stepOp m) := by
    induction ops with
    | nil => intro m h; exact h
    | cons op rest ih =>
        intro m h
        exact ih (stepOp m op) (nodupKeys_stepOp op h)
  exact hgen [] (by unfold nodupKeys; simp)

/-- C1: for every sequence of RequestLock and Release operations the
write-lock registry has at most one owner per filename; a lock request
(not cancelled) is granted iff the recorded owner is absent, the empty
string, or already `cid`; on grant the owner becomes `cid` and the reply
is OK with `locked = true`; otherwise the reply is RESOURCE_EXHAUSTED
with `locked = false` and the registry is unchanged; releasing an absent
filename leaves the registry unchanged. -/
theorem lock_registry_contract :
    (∀ (ops : List LockOp) (f : String),
        ((runOps ops).map Prod.fst).count f ≤ 1) ∧
    (∀ (m : Registry) (f cid : String),
        (dfsRequestLock m f cid false).locked = true ↔
          lookupOwner m f = none ∨ lookupOwner m f = some "" ∨
          lookupOwner m f = some cid) ∧
    (∀ (m : Registry) (f cid : String),
        (dfsRequestLock m f cid false).locked = true →
          lookupOwner (dfsRequestLock m f cid false).registry f = some cid ∧
          (dfsRequestLock m f cid false).status = StatusCode.ok) ∧
    (∀ (m : Registry) (f cid : String),
        (dfsRequestLock m f cid false).locked = false →
          (dfsRequestLock m f cid false).registry = m ∧
          (dfsRequestLock m f cid false).status = StatusCode.resourceExhausted) ∧
    (∀ (m : Registry) (f : String),
        lookupOwner m f = none → eraseOwner m f = m) := by
  refine ⟨?_, ?_, ?_, ?_, fun m f h => eraseOwner_of_absent h⟩
  · intro ops f
    exact List.nodup_iff_count_le_one.mp (nodupKeys_runOps ops) f
  · intro m f cid
    unfold dfsRequestLock
    cases hl : lookupOwner m f with
    | none => simp
    | some owner =>
        by_cases ho : owner = "" ∨ owner = cid
        · simp only [Bool.false_eq_true, if_false]
          rcases ho with ho | ho <;> simp [ho]
        · push_neg at ho
          simp [ho.1, ho.2]
  · intro m f cid hlock
    unfold dfsRequestLock at hlock ⊢
    cases hl : lookupOwner m f with
    | none => simp [lookupOwner_setOwner_self]
    | some owner =>
        rw [hl] at hlock
        by_cases ho : owner = "" ∨ owner = cid
        · simp [ho, lookupOwner_setOwner_self]
        · simp [ho] at hlock
  · intro m f cid hlock
    unfold dfsRequestLock at hlock ⊢
    cases hl : lookupOwner m f with
    | none => rw [hl] at hlock; simp at hlock
    | some owner =>
        rw [hl] at hlock
        by_cases ho : owner = "" ∨ owner = cid
        · simp [ho] at hlock
        · simp [ho]

/-- Witness for `lock_registry_contract` at concrete inputs: a request by
`B` while `A` owns `"a"` is rejected and leaves the map untouched, a
release of the absent filename `"a"` is a no-op, and a concrete operation
sequence keeps at most one entry for `"a"`. -/
theorem lock_registry_contract_witness :
    (dfsRequestLock [("a", "A")] "a" "B" false).locked = false ∧
    (dfsRequestLock [("a", "A")] "a" "B" false).registry = [("a", "A")] ∧
    (dfsRequestLock [("a", "A")] "a" "B" false).status = StatusCode.resourceExhausted ∧
    eraseOwner [("b", "B")] "a" = [("b", "B")] ∧
    ((runOps [LockOp.request "a" "A" false, LockOp.request "a" "B" false,
        LockOp.release "a"]).map Prod.fst).count "a" ≤ 1 := by
  have h := lock_registry_contract
  have hbusy : (dfsRequestLock [("a", "A")] "a" "B" false).locked = false := by decide
  have habs : lookupOwner [("b", "B")] "a" = none := by decide
  exact ⟨hbusy, (h.2.2.2.1 [("a", "A")] "a" "B" hbusy).1,
    (h.2.2.2.1 [("a", "A")] "a" "B" hbusy).2,
    h.2.2.2.2 [("b", "B")] "a" habs,
    h.1 [LockOp.request "a" "A" false, LockOp.request "a" "B" false,
      LockOp.release "a"] "a"⟩

/-! ## Chunking lemmas -/

theorem storeSendLoop_of_length_256 {content : List Nat} (h : content.length = 256) :
    storeSendLoop content false = [content, []] := by
  have htake : content.take 256 = content := List.take_of_length_le (by omega)
  have hdrop : content.drop 256 = [] := List.drop_eq_nil_of_le (by omega)
  have hflag : decide (content.length < 256) = false := by simp [h]
  rw [storeSendLoop, htake, hdrop, hflag, storeSendLoop]
  simp [storeSendLoop]

theorem getSendLoop_none_of_length_256 {content : List Nat} (h : content.length = 256)
    (i : Nat) : getSendLoop content false none i = (StatusCode.ok, [content, []]) := by
  have htake : content.take 256 = content := List.take_of_length_le (by omega)
  have hdrop : content.drop 256 = [] := List.drop_eq_nil_of_le (by omega)
  have hflag : decide (content.length < 256) = false := by simp [h]
  rw [getSendLoop]
  simp only [htake, hdrop, hflag]
  rw [getSendLoop]
  simp [getSendLoop]

/-- C6 counterexample: a file of exactly 256 bytes is sent as TWO chunk
messages — the full 256-byte chunk and then an empty trailing chunk —
not as exactly one chunk with no empty chunk after it. -/
theorem chunk_256_cex :
    storeSendLoop (List.replicate 256 0) false = [List.replicate 256 0, []] ∧
    ¬ (storeSendLoop (List.replicate 256 0) false).length = 1 := by
  have h := storeSendLoop_of_length_256
    (show (List.replicate 256 0).length = 256 by rw [List.length_replicate])
  exact ⟨h, by rw [h]; decide⟩

/-- C6 (amended): a file of exactly 256 bytes is carried as one full
256-byte chunk followed by one empty chunk, in both the client store
loop and the server fetch handler: the producer loops test eof before
reading, and a read that consumed exactly the whole file does not set
the eof flag, so one empty trailing chunk is written. -/
theorem chunk_256_one_full_then_empty {content : List Nat} (h : content.length = 256) :
    storeSendLoop content false = [content, []] ∧
    dfsGetFile (some content) none = (StatusCode.ok, [content, []]) :=
  ⟨storeSendLoop_of_length_256 h, getSendLoop_none_of_length_256 h 0⟩

/-- Witness for `chunk_256_one_full_then_empty` at the 256-byte file of
ones. -/
theorem chunk_256_one_full_then_empty_witness :
    storeSendLoop (List.replicate 256 1) false = [List.replicate 256 1, []] ∧
    dfsGetFile (some (List.replicate 256 1)) none =
      (StatusCode.ok, [List.replicate 256 1, []]) :=
  chunk_256_one_full_then_empty
    (show (List.replicate 256 1).length = 256 by rw [List.length_replicate])

/-- C2: evaluation of the client Store at the failing input of the
NotFound row.  `Stat` returns NOT_FOUND and leaves the stack-allocated
`FileStatus` struct unwritten; Store nevertheless compares the local CRC
to the struct's residual `server_crc`.  Here both are 0 (an empty local
file), so Store skips the lock and the stream, aligns the local mtime to
the residual mtime value 77, and returns ALREADY_EXISTS — instead of
acquiring the write lock and streaming the local bytes as the claim
states. -/
theorem store_notFound_residual_crc_eval :
    clientStore
      { rawStat := StatusCode.notFound,
        statReply := { filename := "", size := 0, mtime := 0, ctime := 0, server_crc := 9 },
        residual := { filename := "", size := 0, mtime := 77, ctime := 0, server_crc := 0 },
        localCrc := 0, localOpenOk := true,
        rawLock := StatusCode.ok, rawFinish := StatusCode.ok,
        localContent := [], localMtime := 5 } =
      { status := StatusCode.alreadyExists, lockRequested := false, sentChunks := [],
        localContent := [], localMtime := 77 } := by
  rfl

/-- C3: evaluation of the server Store handler at the failing input.
With `"big"` locked by client A and cancellation observed at the check of
the first loop iteration — which happens before the handler's `filename`
variable is assigned from the first chunk — the handler erases the
registry entry for the empty string, returns DEADLINE_EXCEEDED, and
leaves A's lock on `"big"` in place, so a subsequent RequestLock for
`"big"` by client B is refused. -/
theorem store_cancel_first_chunk_lock_leak :
    (dfsStoreFile [("big", "A")] [{ filename := "big", filechunk := [1] }] (some 0)).status =
      StatusCode.deadlineExceeded ∧
    (dfsStoreFile [("big", "A")] [{ filename := "big", filechunk := [1] }] (some 0)).registry =
      [("big", "A")] ∧
    (dfsRequestLock
      (dfsStoreFile [("big", "A")] [{ filename := "big", filechunk := [1] }] (some 0)).registry
      "big" "B" false).locked = false := by
  decide

/-- C4: when Stat succeeds and the server CRC equals the local CRC, both
Store and Fetch return ALREADY_EXISTS, request no write lock, issue no
transfer, leave the local content untouched, and set the local mtime to
the server's mtime. -/
theorem equal_crc_store_fetch_noop (es : StoreEnv) (ef : FetchEnv)
    (hs : es.rawStat = StatusCode.ok)
    (hsc : es.localCrc = es.statReply.server_crc)
    (hf : ef.rawStat = StatusCode.ok)
    (hfc : ef.localCrc = ef.statReply.server_crc) :
    clientStore es =
      { status := StatusCode.alreadyExists, lockRequested := false,
        sentChunks := [], localContent := es.localContent,
        localMtime := es.statReply.mtime } ∧
    clientFetch ef =
      { status := StatusCode.alreadyExists, fetchIssued := false,
        localContent := ef.localContent, localMtime := ef.statReply.mtime } := by
  constructor
  · unfold clientStore
    simp [hs, statTranslate, hsc]
  · unfold clientFetch
    simp [hf, statTranslate, hfc]

/-- Witness for `equal_crc_store_fetch_noop` at concrete inputs with
matching CRC 42. -/
theorem equal_crc_store_fetch_noop_witness :
    clientStore
      { rawStat := StatusCode.ok,
        statReply := { filename := "a", size := 3, mtime := 1000, ctime := 0, server_crc := 42 },
        residual := { filename := "", size := 0, mtime := 0, ctime := 0, server_crc := 0 },
        localCrc := 42, localOpenOk := true, rawLock := StatusCode.ok,
        rawFinish := StatusCode.ok, localContent := [1, 2, 3], localMtime := 500 } =
      { status := StatusCode.alreadyExists, lockRequested := false, sentChunks := [],
        localContent := [1, 2, 3], localMtime := 1000 } ∧
    clientFetch
      { rawStat := StatusCode.ok,
        statReply := { filename := "a", size := 3, mtime := 1000, ctime := 0, server_crc := 42 },
        localCrc := 42, recvChunks := [[7]], rawFinish := StatusCode.ok,
        localContent := [1, 2, 3], localMtime := 500 } =
      { status := StatusCode.alreadyExists, fetchIssued := false,
        localContent := [1, 2, 3], localMtime := 1000 } :=
  equal_crc_store_fetch_noop _ _ rfl rfl rfl rfl

/-- C5 counterexample: the List operation's translation collapses a
received NOT_FOUND to CANCELLED, contradicting the claim that every
operation maps NOT_FOUND to itself. -/
theorem list_translate_notFound_cex :
    listTranslate StatusCode.notFound = StatusCode.cancelled ∧
    ¬ listTranslate StatusCode.notFound = StatusCode.notFound := by
  decide

/-- C5 (amended): every operation maps OK and DEADLINE_EXCEEDED to
themselves; Stat, Fetch and Delete additionally preserve NOT_FOUND, and
RequestWriteAccess additionally preserves RESOURCE_EXHAUSTED; every
other received code — including NOT_FOUND on List, Store-finish and
RequestWriteAccess, RESOURCE_EXHAUSTED outside RequestWriteAccess, and
ALREADY_EXISTS everywhere — collapses to CANCELLED. -/
theorem client_translation_tables (s : StatusCode) :
    (listTranslate StatusCode.ok = StatusCode.ok ∧
      storeFinishTranslate StatusCode.ok = StatusCode.ok ∧
      statTranslate StatusCode.ok = StatusCode.ok ∧
      fetchFinishTranslate StatusCode.ok = StatusCode.ok ∧
      deleteTranslate StatusCode.ok = StatusCode.ok ∧
      requestLockTranslate StatusCode.ok = StatusCode.ok) ∧
    (listTranslate StatusCode.deadlineExceeded = StatusCode.deadlineExceeded ∧
      storeFinishTranslate StatusCode.deadlineExceeded = StatusCode.deadlineExceeded ∧
      statTranslate StatusCode.deadlineExceeded = StatusCode.deadlineExceeded ∧
      fetchFinishTranslate StatusCode.deadlineExceeded = StatusCode.deadlineExceeded ∧
      deleteTranslate StatusCode.deadlineExceeded = StatusCode.deadlineExceeded ∧
      requestLockTranslate StatusCode.deadlineExceeded = StatusCode.deadlineExceeded) ∧
    (statTranslate StatusCode.notFound = StatusCode.notFound ∧
      fetchFinishTranslate StatusCode.notFound = StatusCode.notFound ∧
      deleteTranslate StatusCode.notFound = StatusCode.notFound) ∧
    (requestLockTranslate StatusCode.resourceExhausted = StatusCode.resourceExhausted) ∧
    (¬ s = StatusCode.ok → ¬ s = StatusCode.deadlineExceeded →
      listTranslate s = StatusCode.cancelled ∧
      storeFinishTranslate s = StatusCode.cancelled) ∧
    (¬ s = StatusCode.ok → ¬ s = StatusCode.deadlineExceeded →
      ¬ s = StatusCode.notFound →
      statTranslate s = StatusCode.cancelled ∧
      fetchFinishTranslate s = StatusCode.cancelled ∧
      deleteTranslate s = StatusCode.cancelled) ∧
    (¬ s = StatusCode.ok → ¬ s = StatusCode.deadlineExceeded →
      ¬ s = StatusCode.resourceExhausted →
      requestLockTranslate s = StatusCode.cancelled) := by
  cases s <;>
    simp [listTranslate, storeFinishTranslate, statTranslate, fetchFinishTranslate,
      deleteTranslate, requestLockTranslate]

/-- Witness for `client_translation_tables` at the unrecognized transport
code 7: every operation collapses it to CANCELLED. -/
theorem client_translation_tables_witness :
    listTranslate (StatusCode.otherCode 7) = StatusCode.cancelled ∧
    storeFinishTranslate (StatusCode.otherCode 7) = StatusCode.cancelled ∧
    statTranslate (StatusCode.otherCode 7) = StatusCode.cancelled ∧
    fetchFinishTranslate (StatusCode.otherCode 7) = StatusCode.cancelled ∧
    deleteTranslate (StatusCode.otherCode 7) = StatusCode.cancelled ∧
    requestLockTranslate (StatusCode.otherCode 7) = StatusCode.cancelled := by
  have h := client_translation_tables (StatusCode.otherCode 7)
  have h1 := h.2.2.2.2.1 (by decide) (by decide)
  have h2 := h.2.2.2.2.2.1 (by decide) (by decide) (by decide)
  have h3 := h.2.2.2.2.2.2 (by decide) (by decide) (by decide)
  exact ⟨h1.1, h1.2, h2.1, h2.2.1, h2.2.2, h3⟩

/-- C7: the client Delete acquires the write lock first and issues the
unary delete RPC only when that returned OK; the server handler (one
atomic step under the lock-registry mutex) erases the filename's lock on
every path, reports DEADLINE_EXCEEDED when cancelled before the removal,
OK on successful removal, and CANCELLED on removal failure (including a
missing file). -/
theorem delete_lock_release_contract :
    (∀ (m : Registry) (f : String) (cancelled removeOk : Bool),
        (dfsDeleteFile m f cancelled removeOk).registry = eraseOwner m f ∧
        lookupOwner (dfsDeleteFile m f cancelled removeOk).registry f = none ∧
        (dfsDeleteFile m f cancelled removeOk).status =
          (if cancelled then StatusCode.deadlineExceeded
           else if removeOk then StatusCode.ok else StatusCode.cancelled)) ∧
    (∀ rawLock rawDelete : StatusCode,
        (¬ requestLockTranslate rawLock = StatusCode.ok →
          clientDelete rawLock rawDelete =
            { status := requestLockTranslate rawLock, rpcIssued := false }) ∧
        (requestLockTranslate rawLock = StatusCode.ok →
          clientDelete rawLock rawDelete =
            { status := deleteTranslate rawDelete, rpcIssued := true })) := by
  constructor
  · intro m f cancelled removeOk
    refine ⟨?_, ?_, ?_⟩ <;> cases cancelled <;> cases removeOk <;>
      simp [dfsDeleteFile, lookupOwner_eraseOwner]
  · intro rawLock rawDelete
    constructor <;> intro h <;> simp [clientDelete, h]

/-- Witness for `delete_lock_release_contract`: a successful delete of
`"x"` locked by A erases the lock, and a Delete whose lock request came
back RESOURCE_EXHAUSTED never issues the delete RPC. -/
theorem delete_lock_release_contract_witness :
    (dfsDeleteFile [("x", "A")] "x" false true).registry = eraseOwner [("x", "A")] "x" ∧
    lookupOwner (dfsDeleteFile [("x", "A")] "x" false true).registry "x" = none ∧
    (dfsDeleteFile [("x", "A")] "x" false true).status = StatusCode.ok ∧
    clientDelete StatusCode.resourceExhausted StatusCode.ok =
      { status := StatusCode.resourceExhausted, rpcIssued := false } := by
  have h := delete_lock_release_contract
  have h1 := h.1 [("x", "A")] "x" false true
  have h2 := (h.2 StatusCode.resourceExhausted StatusCode.ok).1 (by decide)
  exact ⟨h1.1, h1.2.1, h1.2.2, h2⟩

/-- C9: in the streaming branch of Fetch (Stat OK and CRCs differ) the
local file is opened for truncating binary write before the stream is
read, so afterwards it holds exactly the received chunk bytes whatever
status `Finish` yields (DEADLINE_EXCEEDED, NOT_FOUND or CANCELLED
included); when the received bytes differ from the previous content the
previous content is not restored. -/
theorem fetch_no_local_atomicity (e : FetchEnv)
    (h : e.rawStat = StatusCode.ok)
    (hc : ¬ e.localCrc = e.statReply.server_crc) :
    (clientFetch e).localContent = e.recvChunks.flatten ∧
    (clientFetch e).status = fetchFinishTranslate e.rawFinish ∧
    (clientFetch e).fetchIssued = true ∧
    (¬ e.recvChunks.flatten = e.localContent →
      ¬ (clientFetch e).localContent = e.localContent) := by
  unfold clientFetch
  simp [h, statTranslate, hc]

/-- Witness for `fetch_no_local_atomicity`: a Fetch whose stream dies
with DEADLINE_EXCEEDED before any chunk leaves the local file truncated
to empty, destroying its previous byte. -/
theorem fetch_no_local_atomicity_witness :
    (clientFetch
      { rawStat := StatusCode.ok,
        statReply := { filename := "f", size := 1, mtime := 9, ctime := 0, server_crc := 1 },
        localCrc := 0, recvChunks := [], rawFinish := StatusCode.deadlineExceeded,
        localContent := [1], localMtime := 3 }).localContent = [] ∧
    (clientFetch
      { rawStat := StatusCode.ok,
        statReply := { filename := "f", size := 1, mtime := 9, ctime := 0, server_crc := 1 },
        localCrc := 0, recvChunks := [], rawFinish := StatusCode.deadlineExceeded,
        localContent := [1], localMtime := 3 }).status = StatusCode.deadlineExceeded ∧
    ¬ (clientFetch
      { rawStat := StatusCode.ok,
        statReply := { filename := "f", size := 1, mtime := 9, ctime := 0, server_crc := 1 },
        localCrc := 0, recvChunks := [], rawFinish := StatusCode.deadlineExceeded,
        localContent := [1], localMtime := 3 }).localContent = [1] := by
  have h := fetch_no_local_atomicity
    { rawStat := StatusCode.ok,
      statReply := { filename := "f", size := 1, mtime := 9, ctime := 0, server_crc := 1 },
      localCrc := 0, recvChunks := [], rawFinish := StatusCode.deadlineExceeded,
      localContent := [1], localMtime := 3 } rfl (by decide)
  exact ⟨by simpa using h.1, by simpa using h.2.1, by simpa using h.2.2.2 (by decide)⟩

/-- The mutex-holding invariant of the watcher serializer: in every
reachable state, an agent whose body is executing holds
`watcher_handle_mutex`. -/
theorem sync_holder_invariant {s : SyncState} (h : SyncReachable s) :
    (s.watcherPhase = SyncPhase.inBody → s.mutexHolder = some SyncAgent.watcher) ∧
    (s.handlerPhase = SyncPhase.inBody → s.mutexHolder = some SyncAgent.handlerThread) := by
  induction h with
  | init => exact ⟨fun h => by simp at h, fun h => by simp at h⟩
  | step hr hstep ih =>
      cases hstep with
      | watcherAcquire hm hp =>
          refine ⟨fun _ => rfl, fun hb => ?_⟩
          have h2 := ih.2 hb
          rw [hm] at h2
          simp at h2
      | watcherRelease hp =>
          refine ⟨fun hb => by simp at hb, fun hb => ?_⟩
          have h1 := ih.1 hp
          have h2 := ih.2 hb
          rw [h1] at h2
          simp at h2
      | handlerAcquire hm hp =>
          refine ⟨fun hb => ?_, fun _ => rfl⟩
          have h2 := ih.1 hb
          rw [hm] at h2
          simp at h2
      | handlerRelease hp =>
          refine ⟨fun hb => ?_, fun hb => by simp at hb⟩
          have h1 := ih.2 hp
          have h2 := ih.1 hb
          rw [h1] at h2
          simp at h2

/-- C8: in every reachable client state the watcher's handler body and
the async callback-list completion handler body are never executing
simultaneously, and each of them executes only while its agent holds the
single `watcher_handle_mutex`. -/
theorem watcher_handler_mutual_exclusion (s : SyncState) (h : SyncReachable s) :
    ¬ (s.watcherPhase = SyncPhase.inBody ∧ s.handlerPhase = SyncPhase.inBody) ∧
    (s.watcherPhase = SyncPhase.inBody → s.mutexHolder = some SyncAgent.watcher) ∧
    (s.handlerPhase = SyncPhase.inBody → s.mutexHolder = some SyncAgent.handlerThread) := by
  have hi := sync_holder_invariant h
  refine ⟨?_, hi.1, hi.2⟩
  rintro ⟨hw, hh⟩
  have h1 := hi.1 hw
  have h2 := hi.2 hh
  rw [h1] at h2
  simp at h2

/-- Witness for `watcher_handler_mutual_exclusion` at the reachable
state in which the watcher has acquired the mutex and is in its body. -/
theorem watcher_handler_mutual_exclusion_witness :
    SyncReachable ⟨some SyncAgent.watcher, SyncPhase.inBody, SyncPhase.idle⟩ ∧
    ¬ (SyncPhase.inBody = SyncPhase.inBody ∧ SyncPhase.idle = SyncPhase.inBody) := by
  have hr : SyncReachable ⟨some SyncAgent.watcher, SyncPhase.inBody, SyncPhase.idle⟩ :=
    SyncReachable.step SyncReachable.init (SyncStep.watcherAcquire _ rfl rfl)
  exact ⟨hr, (watcher_handler_mutual_exclusion _ hr).1⟩

/-- C10: the server List handler and the async-dispatcher listing are
defined exactly when the mount directory opens (or, for DFSList, when
the call was already cancelled before `opendir`): neither has an error
branch for a failed directory open, so the embedding assigns them no
result in that case. -/
theorem list_requires_open_mount_dir :
    (∀ (cancelled : Bool) (dirOpen : Option (List DirEntry)),
        dfsList cancelled dirOpen = none ↔ (cancelled = false ∧ dirOpen = none)) ∧
    (∀ dirOpen : Option (List DirEntry),
        processCallback dirOpen = none ↔ dirOpen = none) := by
  constructor
  · intro cancelled dirOpen
    cases cancelled <;> cases dirOpen <;> simp [dfsList]
  · intro dirOpen
    cases dirOpen <;> simp [processCallback]

/-- Witness for `list_requires_open_mount_dir`: with a failed `opendir`
both routines have no defined result, and with an open directory DFSList
produces one. -/
theorem list_requires_open_mount_dir_witness :
    dfsList false none = none ∧ processCallback none = none ∧
    ¬ dfsList false (some []) = none := by
  refine ⟨(list_requires_open_mount_dir.1 false none).mpr ⟨rfl, rfl⟩,
    (list_requires_open_mount_dir.2 none).mpr rfl, ?_⟩
  intro h
  have := (list_requires_open_mount_dir.1 false (some [])).mp h
  simp at this
